import Mathlib

set_option maxRecDepth 100000

/-!
Verification development for the text-conversion core of the
MATLAB-Calculator-on-py repository: the shortcut-to-LaTeX expander
(`latex_pack/shortcut.py`, class `ExpressionShortcuts`) and the
symbolic-expression-to-MATLAB converter
(`matlab_interface/sympy_to_matlab.py`, class `SympyToMatlab`).

The Python code is shallowly embedded: strings are `List Char` (for the
shortcut expander, whose claims quantify over string shapes) or `String`
(for the MATLAB converter).  Python's `str.replace`, `str.split(' ', 1)`,
substring `in`, `str.startswith`, and the two anchored regular expressions
`d(\d*)/d([xyz])(\d*)` and `d(\d*)([xyz])` of `convert_shortcut` are
embedded as executable functions below.  `\d` / `str.isdigit` are modelled
as ASCII digits via `Char.isDigit` (all shortcut processing in the source
is over ASCII text).
-/

/-- Table `ExpressionShortcuts.DERIVATIVE_SHORTCUTS` (shortcut.py lines 9-17),
in Python dict insertion order. -/
def DERIVATIVE_SHORTCUTS : List (List Char × List Char) := [
  ("d/dx".data, "\\frac\x7bd\x7d\x7bdx\x7d".data),
  ("d/dy".data, "\\frac\x7bd\x7d\x7bdy\x7d".data),
  ("d/dt".data, "\\frac\x7bd\x7d\x7bdt\x7d".data),
  ("d2/dx2".data, "\\frac\x7bd^2\x7d\x7bdx^2\x7d".data),
  ("d3/dx3".data, "\\frac\x7bd^3\x7d\x7bdx^3\x7d".data),
  ("d4/dx4".data, "\\frac\x7bd^4\x7d\x7bdx^4\x7d".data),
  ("d5/dx5".data, "\\frac\x7bd^5\x7d\x7bdx^5\x7d".data)]

/-- Table `ExpressionShortcuts.INTEGRAL_SHORTCUTS` (shortcut.py lines 20-26). -/
def INTEGRAL_SHORTCUTS : List (List Char × List Char) := [
  ("int".data, "\\int".data),
  ("integral".data, "\\int".data),
  ("iint".data, "\\iint".data),
  ("iiint".data, "\\iiint".data),
  ("oint".data, "\\oint".data)]

/-- Table `ExpressionShortcuts.FUNCTION_SHORTCUTS` (shortcut.py lines 29-47). -/
def FUNCTION_SHORTCUTS : List (List Char × List Char) := [
  ("sqrt".data, "\\sqrt".data),
  ("root".data, "\\sqrt".data),
  ("abs".data, "\\left|#\\right|".data),
  ("sin".data, "\\sin".data),
  ("cos".data, "\\cos".data),
  ("tan".data, "\\tan".data),
  ("csc".data, "\\csc".data),
  ("sec".data, "\\sec".data),
  ("cot".data, "\\cot".data),
  ("arcsin".data, "\\arcsin".data),
  ("arccos".data, "\\arccos".data),
  ("arctan".data, "\\arctan".data),
  ("ln".data, "\\ln".data),
  ("lg".data, "\\log".data),
  ("log".data, "\\log".data),
  ("log10".data, "\\log_\x7b10\x7d".data),
  ("log2".data, "\\log_\x7b2\x7d".data)]

/-- Table `ExpressionShortcuts.FRACTION_SHORTCUTS` (shortcut.py lines 50-52). -/
def FRACTION_SHORTCUTS : List (List Char × List Char) := [
  ("//".data, "\\frac\x7b#\x7d\x7b#\x7d".data)]

/-- Table `ExpressionShortcuts.GREEK_SHORTCUTS` (shortcut.py lines 55-79). -/
def GREEK_SHORTCUTS : List (List Char × List Char) := [
  ("alpha".data, "\\alpha".data),
  ("beta".data, "\\beta".data),
  ("gamma".data, "\\gamma".data),
  ("delta".data, "\\delta".data),
  ("epsilon".data, "\\epsilon".data),
  ("zeta".data, "\\zeta".data),
  ("eta".data, "\\eta".data),
  ("theta".data, "\\theta".data),
  ("iota".data, "\\iota".data),
  ("kappa".data, "\\kappa".data),
  ("lambda".data, "\\lambda".data),
  ("mu".data, "\\mu".data),
  ("nu".data, "\\nu".data),
  ("xi".data, "\\xi".data),
  ("pi".data, "\\pi".data),
  ("rho".data, "\\rho".data),
  ("sigma".data, "\\sigma".data),
  ("tau".data, "\\tau".data),
  ("upsilon".data, "\\upsilon".data),
  ("phi".data, "\\phi".data),
  ("chi".data, "\\chi".data),
  ("psi".data, "\\psi".data),
  ("omega".data, "\\omega".data)]

/-- Table `ExpressionShortcuts.OPERATOR_SHORTCUTS` (shortcut.py lines 82-91). -/
def OPERATOR_SHORTCUTS : List (List Char × List Char) := [
  ("sum".data, "\\sum".data),
  ("prod".data, "\\prod".data),
  ("lim".data, "\\lim".data),
  ("to".data, "\\to".data),
  ("rightarrow".data, "\\rightarrow".data),
  ("leftarrow".data, "\\leftarrow".data),
  ("infty".data, "\\infty".data),
  ("infinity".data, "\\infty".data)]

/-- `ExpressionShortcuts.get_all_shortcuts` (shortcut.py lines 93-108): the six
category dicts merged with `dict.update` into one dict.  The 64 keys are
pairwise distinct (`get_all_shortcuts_keys_nodup` below), so the Python merge
is exactly list concatenation in category order, preserving each dict's
insertion order. -/
def get_all_shortcuts : List (List Char × List Char) :=
  DERIVATIVE_SHORTCUTS ++ INTEGRAL_SHORTCUTS ++ FUNCTION_SHORTCUTS ++
    FRACTION_SHORTCUTS ++ GREEK_SHORTCUTS ++ OPERATOR_SHORTCUTS

/-- Maximal run of ASCII digits at the head of a list: models the greedy
regex group `(\d*)` (its continuation in both derivative patterns is a
non-digit, so greedy maximal munch is exact). -/
def takeDigits : List Char → List Char × List Char
  | [] => ([], [])
  | c :: cs =>
    if c.isDigit then (c :: (takeDigits cs).1, (takeDigits cs).2)
    else ([], c :: cs)

/-- Python `text.split(sep, 1)` restricted to the information
`convert_shortcut` uses: `some (before, after)` when `sep` occurs (split at
the first occurrence, i.e. `len(parts) == 2`), `none` when it does not
(`len(parts) == 1`). -/
def splitFirst (sep : Char) : List Char → Option (List Char × List Char)
  | [] => none
  | c :: cs =>
    if c == sep then some ([], cs)
    else
      match splitFirst sep cs with
      | none => none
      | some p => some (c :: p.1, p.2)

/-- Python `re.match(r'd(\d*)/d([xyz])(\d*)', s)` (shortcut.py line 132):
anchored at the start only; returns `(group 1, group 2)` on success.  The
trailing `(\d*)` group always matches (possibly empty) and is never used by
the source, so it constrains nothing. -/
def matchSlashDeriv (s : List Char) : Option (List Char × Char) :=
  match s with
  | 'd' :: rest =>
    match takeDigits rest with
    | (digits, '/' :: 'd' :: v :: _) =>
      if v == 'x' || v == 'y' || v == 'z' then some (digits, v) else none
    | _ => none
  | _ => none

/-- Python `re.match(r'd(\d*)([xyz])', s)` (shortcut.py line 139):
anchored at the start only; returns `(group 1, group 2)` on success. -/
def matchNoSlashDeriv (s : List Char) : Option (List Char × Char) :=
  match s with
  | 'd' :: rest =>
    match takeDigits rest with
    | (digits, v :: _) =>
      if v == 'x' || v == 'y' || v == 'z' then some (digits, v) else none
    | _ => none
  | _ => none

/-- The f-string `f"\\frac{{d^{order}}}{{d{var}^{order}}} {function_part}"`
(shortcut.py lines 136 and 143), with `order = match.group(1) or '1'`. -/
def derivOut (digits : List Char) (v : Char) (fpart : List Char) : List Char :=
  "\\frac\x7bd^".data ++ (if digits.isEmpty then ['1'] else digits) ++
    "\x7d\x7bd".data ++ v :: '^' :: (if digits.isEmpty then ['1'] else digits) ++
    '\x7d' :: ' ' :: fpart

/-- Python substring test `pat in s`. -/
def containsSub (pat : List Char) : List Char → Bool
  | [] => pat.isEmpty
  | l@(_ :: cs) => pat.isPrefixOf l || containsSub pat cs

/-- Fuelled worker for Python `str.replace(pat, rep)`: replace all
non-overlapping occurrences left to right, scanning resumes after each
inserted replacement.  Each step consumes at least one character of the
subject, so fuel `s.length` (supplied by `replaceAll`) is always enough;
the fuel-exhausted arm is unreachable under that choice. -/
def replaceAllFuel (pat rep : List Char) : Nat → List Char → List Char
  | fuel + 1, c :: cs =>
    if !pat.isEmpty && pat.isPrefixOf (c :: cs) then
      rep ++ replaceAllFuel pat rep fuel (cs.drop (pat.length - 1))
    else
      c :: replaceAllFuel pat rep fuel cs
  | _, s => s

/-- Python `s.replace(pat, rep)`. -/
def replaceAll (pat rep s : List Char) : List Char :=
  replaceAllFuel pat rep s.length s

/-- The table-driven loop of `convert_shortcut` (shortcut.py lines 147-151):
`for shortcut, latex in shortcuts.items(): if shortcut in result and '#' not
in latex: result = result.replace(shortcut, latex)`. -/
def applyShortcuts (table : List (List Char × List Char)) (s : List Char) : List Char :=
  table.foldl
    (fun acc p =>
      if containsSub p.1 acc && !(p.2.elem '#') then replaceAll p.1 p.2 acc else acc)
    s

/-- Guard of the derivative fast path (shortcut.py line 124):
`text.startswith('d') and ('/' in text or text[1:2].isdigit())`. -/
def fastGuard : List Char → Bool
  | [] => false
  | c :: cs => c == 'd' && ((c :: cs).elem '/' || (match cs with
      | c2 :: _ => c2.isDigit
      | [] => false))

/-- Body of the `len(parts) == 2` branch (shortcut.py lines 127-145): try the
slash pattern when the derivative part contains `/`, else the no-slash
pattern; on success produce the `\frac` output, on failure return `result`
(still the whole original `text`) immediately. -/
def fastBranch (text dpart fpart : List Char) : List Char :=
  if dpart.elem '/' then
    match matchSlashDeriv dpart with
    | some dv => derivOut dv.1 dv.2 fpart
    | none => text
  else
    match matchNoSlashDeriv dpart with
    | some dv => derivOut dv.1 dv.2 fpart
    | none => text

/-- `ExpressionShortcuts.convert_shortcut` (shortcut.py lines 110-153).  When
the fast-path guard holds but the text has no space (`len(parts) != 2`), the
code falls through to the general substitution loop; likewise when the guard
fails. -/
def convert_shortcut (text : List Char) : List Char :=
  if fastGuard text then
    match splitFirst ' ' text with
    | some p => fastBranch text p.1 p.2
    | none => applyShortcuts get_all_shortcuts text
  else
    applyShortcuts get_all_shortcuts text

/-!
Embedding of `matlab_interface/sympy_to_matlab.py`.  A SymPy expression is
modelled as a tagged tree `MExpr` following the spec's data model
(`Integral`, `Derivative`, `Equation`, `FunctionCall`, `Generic`); a
`Generic` node carries the underlying library's default string form (SymPy's
`str` printer, which renders powers with `**`).  Function-call argument
lists are the mutually inductive `MArgs` so that all recursion is
structural and results compute by `rfl`/`decide`.  Python exceptions are
`Except String`.
-/

/-- The first slot of `Derivative.variables`: either a bare variable, or a
`(variable, order)` pair (the two shapes distinguished at
sympy_to_matlab.py lines 90-95). -/
inductive VarSlot : Type where
  | plain : String → VarSlot
  | withOrder : String → Nat → VarSlot

mutual
/-- Tagged symbolic-expression tree consumed by `SympyToMatlab`.
`Integral` carries the integrand and the first limit tuple (as the list of
its printed entries); `Derivative` carries the inner expression, the first
variable slot and `derivative_count`; `Generic` carries the expression's
default string form. -/
inductive MExpr : Type where
  | Integral : MExpr → List String → MExpr
  | Derivative : MExpr → VarSlot → Nat → MExpr
  | Equation : MExpr → MExpr → MExpr
  | FunctionCall : String → MArgs → MExpr
  | Generic : String → MExpr

/-- Argument list of a function-call node. -/
inductive MArgs : Type where
  | nil : MArgs
  | cons : MExpr → MArgs → MArgs
end

/-- `isinstance(expr, sy.Integral)`. -/
def isIntegral : MExpr → Bool
  | .Integral _ _ => true
  | _ => false

mutual
/-- `SympyToMatlab.sympy_to_str` (line 154-156): `str(expr)`, SymPy's
default printer.  A `Generic` node carries its printed form directly; a
function call prints as `name(arg, ...)`; the remaining structured nodes
print in SymPy's `Head(child, ...)` style (never reached by the claims). -/
def strForm : MExpr → String
  | .Generic s => s
  | .FunctionCall name args => name ++ "(" ++ strFormArgs args ++ ")"
  | .Integral integrand limits =>
    "Integral(" ++ strForm integrand ++ ", " ++
      (match limits with
       | [v] => v
       | l => "(" ++ String.intercalate ", " l ++ ")") ++ ")"
  | .Derivative inner slot _ =>
    "Derivative(" ++ strForm inner ++ ", " ++
      (match slot with
       | .plain v => v
       | .withOrder v n => "(" ++ v ++ ", " ++ toString n ++ ")") ++ ")"
  | .Equation l r => "Eq(" ++ strForm l ++ ", " ++ strForm r ++ ")"

/-- Comma-separated printing of an argument list. -/
def strFormArgs : MArgs → String
  | .nil => ""
  | .cons e .nil => strForm e
  | .cons e (.cons e' es) => strForm e ++ ", " ++ strFormArgs (.cons e' es)
end

/-- The dict `function_mappings` of `_handle_function`
(sympy_to_matlab.py lines 126-140). -/
def function_mappings : List (String × String) := [
  ("sin", "sin"), ("cos", "cos"), ("tan", "tan"),
  ("csc", "csc"), ("sec", "sec"), ("cot", "cot"),
  ("arcsin", "asin"), ("arccos", "acos"), ("arctan", "atan"),
  ("ln", "log"), ("log10", "log10"), ("log2", "log2")]

/-- `function_mappings.get(func_name, func_name)` (line 142). -/
def mapFunc (n : String) : String :=
  (function_mappings.lookup n).getD n

/-- Extraction of `(var, order)` from the first variable slot
(sympy_to_matlab.py lines 88-95): a tuple slot is unpacked, otherwise the
order is `expr.derivative_count`. -/
def extractVarOrder : VarSlot → Nat → String × Nat
  | .withOrder v n, _ => (v, n)
  | .plain v, dcount => (v, dcount)

/-- `SympyToMatlab._process_expression_string` (lines 158-176): `str(expr)`
with the single replacement `** → ^` (the replacement dict deliberately
holds no entry for `*` or `/`). -/
def _process_expression_string (s : String) : String :=
  ⟨replaceAll "**".data "^".data s.data⟩

mutual
/-- `SympyToMatlab.sympy_to_matlab` (lines 9-152) on a single (non-list)
expression: dispatch on the expression tag; `_handle_integral`,
`_handle_derivative`, `_handle_equation`, `_handle_function` inlined;
any other expression goes through `_process_expression_string`.
Python exceptions (the `var, lower, upper = var_info` unpack failure for a
limit tuple of arity other than 1 or 3) are `Except.error`. -/
def sympy_to_matlab : MExpr → Except String String
  | .Integral integrand limits =>
    match (if isIntegral integrand then sympy_to_matlab integrand
           else .ok (strForm integrand)) with
    | .error m => .error m
    | .ok istr =>
      match limits with
      | [v] => .ok ("int(" ++ istr ++ ", \x27" ++ v ++ "\x27)")
      | [v, lo, hi] =>
        .ok ("int(" ++ istr ++ ", \x27" ++ v ++ "\x27, " ++ lo ++ ", " ++ hi ++ ")")
      | _ => .error "ValueError: cannot unpack limit tuple"
  | .Derivative inner slot dcount =>
    match sympy_to_matlab inner with
    | .error m => .error m
    | .ok fstr =>
      if (extractVarOrder slot dcount).2 = 1 then
        .ok ("diff(" ++ fstr ++ ", \x27" ++ (extractVarOrder slot dcount).1 ++ "\x27)")
      else
        .ok ("diff(" ++ fstr ++ ", \x27" ++ (extractVarOrder slot dcount).1 ++ "\x27, " ++
          toString (extractVarOrder slot dcount).2 ++ ")")
  | .Equation l r =>
    match sympy_to_matlab l with
    | .error m => .error m
    | .ok ls =>
      match sympy_to_matlab r with
      | .error m => .error m
      | .ok rs => .ok (ls ++ " == " ++ rs)
  | .FunctionCall name args =>
    match sympy_to_matlab_args args with
    | .error m => .error m
    | .ok argStr =>
      if name = "abs" then .ok ("abs(" ++ argStr ++ ")")
      else .ok (mapFunc name ++ "(" ++ argStr ++ ")")
  | .Generic s => .ok (_process_expression_string s)

/-- `', '.join([self.sympy_to_matlab(arg) for arg in args])` (line 143);
an exception in any argument propagates. -/
def sympy_to_matlab_args : MArgs → Except String String
  | .nil => .ok ""
  | .cons e .nil => sympy_to_matlab e
  | .cons e (.cons e' es) =>
    match sympy_to_matlab e with
    | .error m => .error m
    | .ok a =>
      match sympy_to_matlab_args (.cons e' es) with
      | .error m => .error m
      | .ok b => .ok (a ++ ", " ++ b)
end

/-- Input to the public entry point: either a bare expression or a Python
list of expressions. -/
inductive MInput : Type where
  | single : MExpr → MInput
  | listIn : List MExpr → MInput

/-- The entry point including `_handle_list_expression` (lines 44-50): a
list input is replaced by its first element, and an empty list raises
`ValueError("Empty expression list")` (the spec's `EmptyExpression`). -/
def sympy_to_matlab_entry : MInput → Except String String
  | .single e => sympy_to_matlab e
  | .listIn [] => .error "Empty expression list"
  | .listIn (e :: _) => sympy_to_matlab e

/-- Python substring occurrence as a strict substring: `t` occurs in `r` and
`t ≠ r`. -/
def strictSub (t r : List Char) : Bool :=
  containsSub t r && !(t == r)

/-- Outputs of `convert_shortcut` on the bare tokens of the merged table
whose replacement carries no `#` placeholder.  For four tokens an earlier
table entry (`int → \int` resp. `log → \log`) rewrites the token before its
own entry fires, so the final output gains one extra leading backslash;
every other such token maps to its table replacement. -/
def expectedTokenOutput (t r : List Char) : List Char :=
  if t == "integral".data then "\\\\int".data
  else if t == "lg".data then "\\\\log".data
  else if t == "log10".data then "\\\\log_\x7b10\x7d".data
  else if t == "log2".data then "\\\\log_\x7b2\x7d".data
  else r

/-! Helper lemmas about the embedded string primitives. -/

/-- Sanity: no key collisions across the six category tables, so the
concatenation model of `dict.update` merging is faithful. -/
theorem get_all_shortcuts_keys_nodup : (get_all_shortcuts.map Prod.fst).Nodup := by
  decide

/-- `takeDigits` splits an all-digit run off the front when the remainder
does not start with a digit. -/
lemma takeDigits_append (ds rest : List Char)
    (h : ∀ c ∈ ds, c.isDigit = true)
    (hr : ∀ c, rest.head? = some c → c.isDigit = false) :
    takeDigits (ds ++ rest) = (ds, rest) := by
  induction ds with
  | nil =>
    simp only [List.nil_append]
    cases rest with
    | nil => rfl
    | cons r rs => simp [takeDigits, hr r rfl]
  | cons c cs ih =>
    have hc : c.isDigit = true := h c (by simp)
    simp only [List.cons_append, takeDigits, hc, if_true, List.append_eq]
    rw [ih (fun x hx => h x (by simp [hx]))]

/-- `splitFirst` splits exactly at the first occurrence of the separator. -/
lemma splitFirst_append (sep : Char) (a b : List Char) (h : sep ∉ a) :
    splitFirst sep (a ++ sep :: b) = some (a, b) := by
  induction a with
  | nil => simp [splitFirst]
  | cons c cs ih =>
    have hc : (c == sep) = false :=
      beq_eq_false_iff_ne.mpr (fun e => h (by simp [e]))
    simp only [List.cons_append, splitFirst, hc, Bool.false_eq_true, if_false,
      List.append_eq]
    rw [ih (fun hx => h (List.mem_cons_of_mem _ hx))]

/-- Claim C1: an input of the shape `d<order?>/d<var><order?> <function_part>`
(with `var` in the alphabet `x`, `y`, `z` and the same optional digit run in
both order slots) is rewritten by `convert_shortcut` to
`\frac{d^<order>}{d<var>^<order>} <function_part>`, where the order defaults
to `1` when the digit run is empty. -/
theorem claim1_slash_derivative (order fpart : List Char) (v : Char)
    (hd : ∀ c ∈ order, c.isDigit = true)
    (hv : v = 'x' ∨ v = 'y' ∨ v = 'z') :
    convert_shortcut ('d' :: order ++ '/' :: 'd' :: v :: order ++ ' ' :: fpart) =
      "\\frac\x7bd^".data ++ (if order.isEmpty then ['1'] else order) ++
        "\x7d\x7bd".data ++ v :: '^' :: (if order.isEmpty then ['1'] else order) ++
        '\x7d' :: ' ' :: fpart := by
  have hvs : v ≠ ' ' := by rcases hv with rfl | rfl | rfl <;> decide
  have hos : ' ' ∉ order := fun hm => absurd (hd ' ' hm) (by decide)
  have hguard : fastGuard ('d' :: order ++ '/' :: 'd' :: v :: order ++ ' ' :: fpart) = true := by
    simp [fastGuard]
  have hassoc : ('d' :: (order ++ '/' :: 'd' :: v :: order)) ++ ' ' :: fpart =
      'd' :: order ++ '/' :: 'd' :: v :: order ++ ' ' :: fpart := by
    simp
  have hsplit : splitFirst ' ' ('d' :: order ++ '/' :: 'd' :: v :: order ++ ' ' :: fpart) =
      some ('d' :: (order ++ '/' :: 'd' :: v :: order), fpart) := by
    rw [← hassoc]
    apply splitFirst_append
    intro hmem
    simp only [List.mem_cons, List.mem_append, List.mem_cons] at hmem
    rcases hmem with h | h | h | h | h | h
    · exact absurd h (by decide)
    · exact hos h
    · exact absurd h (by decide)
    · exact absurd h (by decide)
    · exact hvs h.symm
    · exact hos h
  have helem : ('d' :: (order ++ '/' :: 'd' :: v :: order)).elem '/' = true := by
    simp
  have hmatch : matchSlashDeriv ('d' :: (order ++ '/' :: 'd' :: v :: order)) =
      some (order, v) := by
    simp only [matchSlashDeriv]
    rw [takeDigits_append order ('/' :: 'd' :: v :: order) hd
      (by intro c hc; simp only [List.head?] at hc; rw [← Option.some_inj.mp hc]; decide)]
    rcases hv with rfl | rfl | rfl <;> simp
  simp only [convert_shortcut, hguard, if_true, hsplit]
  simp only [fastBranch, helem, if_true, hmatch]
  simp [derivOut]

/-- Witness for C1: the two spec examples, obtained from
`claim1_slash_derivative` at concrete inputs (empty order and order `2`). -/
theorem claim1_witness :
    convert_shortcut "d/dx x^2".data = "\\frac\x7bd^1\x7d\x7bdx^1\x7d x^2".data ∧
    convert_shortcut "d2/dx2 x^3".data = "\\frac\x7bd^2\x7d\x7bdx^2\x7d x^3".data := by
  constructor
  · exact claim1_slash_derivative [] "x^2".data 'x' (by simp) (Or.inl rfl)
  · exact claim1_slash_derivative ['2'] "x^3".data 'x' (by decide) (Or.inl rfl)

/-- Claim C10: an input of the shape `d<digits?>/d<c><digits?> <rest>` whose
variable letter `c` lies outside the alphabet `x`, `y`, `z` enters the
derivative fast path, fails the pattern, and is returned unchanged; in
particular the table entry for `d/dt` is never applied to such
space-separated inputs. -/
theorem claim10_unknown_variable_unchanged (o1 o2 rest : List Char) (c : Char)
    (h1 : ∀ d ∈ o1, d.isDigit = true) (h2 : ∀ d ∈ o2, d.isDigit = true)
    (hx : c ≠ 'x') (hy : c ≠ 'y') (hz : c ≠ 'z') (hs : c ≠ ' ') :
    convert_shortcut ('d' :: o1 ++ '/' :: 'd' :: c :: o2 ++ ' ' :: rest) =
      'd' :: o1 ++ '/' :: 'd' :: c :: o2 ++ ' ' :: rest := by
  have hos : ' ' ∉ o1 := fun hm => absurd (h1 ' ' hm) (by decide)
  have hos2 : ' ' ∉ o2 := fun hm => absurd (h2 ' ' hm) (by decide)
  have hguard : fastGuard ('d' :: o1 ++ '/' :: 'd' :: c :: o2 ++ ' ' :: rest) = true := by
    simp [fastGuard]
  have hassoc : ('d' :: (o1 ++ '/' :: 'd' :: c :: o2)) ++ ' ' :: rest =
      'd' :: o1 ++ '/' :: 'd' :: c :: o2 ++ ' ' :: rest := by
    simp
  have hsplit : splitFirst ' ' ('d' :: o1 ++ '/' :: 'd' :: c :: o2 ++ ' ' :: rest) =
      some ('d' :: (o1 ++ '/' :: 'd' :: c :: o2), rest) := by
    rw [← hassoc]
    apply splitFirst_append
    intro hmem
    simp only [List.mem_cons, List.mem_append, List.mem_cons] at hmem
    rcases hmem with h | h | h | h | h | h
    · exact absurd h (by decide)
    · exact hos h
    · exact absurd h (by decide)
    · exact absurd h (by decide)
    · exact hs h.symm
    · exact hos2 h
  have helem : ('d' :: (o1 ++ '/' :: 'd' :: c :: o2)).elem '/' = true := by
    simp
  have hmatch : matchSlashDeriv ('d' :: (o1 ++ '/' :: 'd' :: c :: o2)) = none := by
    simp only [matchSlashDeriv]
    rw [takeDigits_append o1 ('/' :: 'd' :: c :: o2) h1
      (by intro x hx'; simp only [List.head?] at hx'; rw [← Option.some_inj.mp hx']; decide)]
    have hcx : (c == 'x') = false := beq_eq_false_iff_ne.mpr hx
    have hcy : (c == 'y') = false := beq_eq_false_iff_ne.mpr hy
    have hcz : (c == 'z') = false := beq_eq_false_iff_ne.mpr hz
    simp [hcx, hcy, hcz]
  simp only [convert_shortcut, hguard, if_true, hsplit]
  simp only [fastBranch, helem, if_true, hmatch]

/-- Witness for C10: `d/dt x^2` (variable `t`) comes back unchanged. -/
theorem claim10_witness :
    convert_shortcut "d/dt x^2".data = "d/dt x^2".data :=
  claim10_unknown_variable_unchanged [] [] "x^2".data 't'
    (by simp) (by simp) (by decide) (by decide) (by decide) (by decide)

/-- Counterexample to C2 as stated: `d/dt x^2` takes the derivative fast path
(starts with `d`, contains `/`, splits into two parts), its derivative part
matches neither pattern, and `convert_shortcut` returns the input unchanged
instead of falling through to the table-substitution path (which would have
rewritten `d/dt` to `\frac{d}{dt}`). -/
theorem claim2_counterexample :
    convert_shortcut "d/dt x^2".data = "d/dt x^2".data ∧
    applyShortcuts get_all_shortcuts "d/dt x^2".data =
      "\\frac\x7bd\x7d\x7bdt\x7d x^2".data ∧
    convert_shortcut "d/dt x^2".data ≠ applyShortcuts get_all_shortcuts "d/dt x^2".data := by
  exact ⟨by decide, by decide, by decide⟩

/-- C2 amended: an input that takes the derivative fast path (guard true,
exactly two parts after splitting at the first space) whose derivative part
matches neither derivative pattern is returned unchanged — the fast path
returns immediately and the general substitution loop is never applied. -/
theorem claim2_failed_match_returns_input (text dpart fpart : List Char)
    (hg : fastGuard text = true)
    (hsplit : splitFirst ' ' text = some (dpart, fpart))
    (hslash : dpart.elem '/' = true → matchSlashDeriv dpart = none)
    (hnoslash : dpart.elem '/' = false → matchNoSlashDeriv dpart = none) :
    convert_shortcut text = text := by
  simp only [convert_shortcut, hg, if_true, hsplit]
  cases hd : dpart.elem '/' with
  | true => simp only [fastBranch, hd, if_true, hslash hd]
  | false => simp only [fastBranch, hd, Bool.false_eq_true, if_false, hnoslash hd]

/-- Witness for the amended C2: `d/ x` enters the fast path, the slash
pattern fails on `d/`, and the input is returned unchanged. -/
theorem claim2_witness : convert_shortcut "d/ x".data = "d/ x".data :=
  claim2_failed_match_returns_input "d/ x".data "d/".data "x".data
    (by decide) (by decide) (fun _ => by decide) (fun h => absurd h (by decide))

/-- The substitution loop leaves a string without any table token untouched. -/
lemma applyShortcuts_no_token (table : List (List Char × List Char)) (s : List Char)
    (h : ∀ p ∈ table, containsSub p.1 s = false) :
    applyShortcuts table s = s := by
  induction table with
  | nil => rfl
  | cons p ps ih =>
    have hp := h p (by simp)
    show List.foldl _ (if containsSub p.1 s && !(p.2.elem '#') then replaceAll p.1 p.2 s else s)
      ps = s
    rw [hp]
    simp only [Bool.false_and, if_false]
    exact ih (fun q hq => h q (by simp [hq]))

/-- Claim C9: `convert_shortcut` is total (it is a plain function in this
embedding, so it returns a string on every input and raises nothing); the
empty string comes back unchanged, and any input containing no recognized
shorthand — no merged-table token as a substring and no derivative-notation
trigger (the fast-path guard is false) — is returned as-is. -/
theorem claim9_no_token_identity :
    convert_shortcut [] = [] ∧
    ∀ s : List Char, fastGuard s = false →
      (∀ p ∈ get_all_shortcuts, containsSub p.1 s = false) →
      convert_shortcut s = s := by
  constructor
  · decide
  · intro s hg h
    simp only [convert_shortcut, hg, Bool.false_eq_true, if_false]
    exact applyShortcuts_no_token get_all_shortcuts s h

/-- Witness for C9: `hello + 1` contains no shortcut token and does not look
like derivative shorthand, so it is returned as-is. -/
theorem claim9_witness : convert_shortcut "hello + 1".data = "hello + 1".data :=
  claim9_no_token_identity.2 "hello + 1".data (by decide) (by decide)

/-- Counterexample to C3 as stated: the token `integral` (replacement `\int`,
no placeholder, and not a strict substring of `\int`) is first mangled by the
earlier entry `int → \int`, so `convert_shortcut "integral"` yields `\\int`
(two backslashes), not `\int` as the claim requires. -/
theorem claim3_counterexample :
    ("integral".data, "\\int".data) ∈ get_all_shortcuts ∧
    ("\\int".data.elem '#') = false ∧
    strictSub "integral".data "\\int".data = false ∧
    convert_shortcut "integral".data = "\\\\int".data ∧
    convert_shortcut "integral".data ≠ "\\int".data := by
  exact ⟨by decide, by decide, by decide, by decide, by decide⟩

set_option maxHeartbeats 1000000 in
/-- C3 amended: for every token `t` with replacement `r` in the merged table
such that `r` has no `#` placeholder, `t` occurs in `convert_shortcut t` only
when `t` is a strict substring of `r`; when `t` is not a strict substring of
`r`, `convert_shortcut t` equals `r` — except for the four tokens `integral`,
`lg`, `log10` and `log2`, which an earlier table entry (`int → \int`,
`log → \log`) rewrites first, leaving the recorded extra-backslash outputs of
`expectedTokenOutput`. -/
theorem claim3_token_roundtrip :
    ∀ p ∈ get_all_shortcuts, (p.2.elem '#') = false →
      (containsSub p.1 (convert_shortcut p.1) = true → strictSub p.1 p.2 = true) ∧
      (strictSub p.1 p.2 = false →
        convert_shortcut p.1 = expectedTokenOutput p.1 p.2) := by
  decide

/-- Witness for the amended C3 at the entry `root → \sqrt` (`root` is not a
strict substring of `\sqrt`, and its conversion is exactly `\sqrt`). -/
theorem claim3_witness : convert_shortcut "root".data = "\\sqrt".data := by
  have h := claim3_token_roundtrip ("root".data, "\\sqrt".data) (by decide) (by decide)
  exact (h.2 (by decide)).trans (by decide)

/-- Claim C4, behaviour at the failing input: `_handle_integral` stringifies
a non-Integral integrand via `sympy_to_str` (plain `str`, no `** → ^`
substitution), so the indefinite integral of `x^2` — whose integrand's
default string form is `x**2` — produces `int(x**2, 'x')`, and the definite
integral from `0` to `1` produces `int(x**2, 'x', 0, 1)`; these differ from
the claimed `int(x^2, 'x')` / `int(x^2, 'x', 0, 1)`. -/
theorem claim4_integral_stringification :
    sympy_to_matlab (.Integral (.Generic "x**2") ["x"]) = .ok "int(x**2, \x27x\x27)" ∧
    sympy_to_matlab (.Integral (.Generic "x**2") ["x", "0", "1"]) =
      .ok "int(x**2, \x27x\x27, 0, 1)" ∧
    ("int(x**2, \x27x\x27)" : String) ≠ "int(x^2, \x27x\x27)" := by
  exact ⟨rfl, rfl, by decide⟩

/-- Claim C5: a `Derivative` node converts to `diff(<func>, '<var>')` when
the extracted order is `1` and to `diff(<func>, '<var>', <order>)` otherwise,
where `<func>` is the recursively converted inner expression and
`(<var>, <order>)` comes from the first variable slot (tuple slot unpacked,
otherwise `derivative_count`). -/
theorem claim5_derivative (inner : MExpr) (slot : VarSlot) (dcount : Nat) (fstr : String)
    (h : sympy_to_matlab inner = .ok fstr) :
    sympy_to_matlab (.Derivative inner slot dcount) =
      .ok (if (extractVarOrder slot dcount).2 = 1 then
            "diff(" ++ fstr ++ ", \x27" ++ (extractVarOrder slot dcount).1 ++ "\x27)"
          else
            "diff(" ++ fstr ++ ", \x27" ++ (extractVarOrder slot dcount).1 ++ "\x27, " ++
              toString (extractVarOrder slot dcount).2 ++ ")") := by
  simp only [sympy_to_matlab, h]
  by_cases ho : (extractVarOrder slot dcount).2 = 1 <;> simp [ho]

/-- Witness for C5: first-order and third-order derivatives of `sin(x)`
with respect to `x`. -/
theorem claim5_witness :
    sympy_to_matlab (.Derivative (.FunctionCall "sin" (.cons (.Generic "x") .nil))
      (.plain "x") 3) = .ok "diff(sin(x), \x27x\x27, 3)" ∧
    sympy_to_matlab (.Derivative (.FunctionCall "sin" (.cons (.Generic "x") .nil))
      (.plain "x") 1) = .ok "diff(sin(x), \x27x\x27)" := by
  constructor
  · exact (claim5_derivative (.FunctionCall "sin" (.cons (.Generic "x") .nil))
      (.plain "x") 3 "sin(x)" rfl).trans (by rfl)
  · exact (claim5_derivative (.FunctionCall "sin" (.cons (.Generic "x") .nil))
      (.plain "x") 1 "sin(x)" rfl).trans (by rfl)

/-- Claim C6: a function call is renamed through the fixed table
(`function_mappings.get(name, name)`, so unlisted names pass through), its
arguments are recursively converted and joined with `", "`, and the
pre-rename name `abs` always produces `abs(<args>)`. -/
theorem claim6_function_call :
    (∀ name args argStr, sympy_to_matlab_args args = .ok argStr →
      sympy_to_matlab (.FunctionCall name args) =
        .ok ((if name = "abs" then "abs" else mapFunc name) ++ "(" ++ argStr ++ ")")) ∧
    mapFunc "arcsin" = "asin" ∧ mapFunc "arccos" = "acos" ∧ mapFunc "arctan" = "atan" ∧
    mapFunc "ln" = "log" ∧
    (∀ n, n ∉ function_mappings.map Prod.fst → mapFunc n = n) := by
  refine ⟨?_, rfl, rfl, rfl, rfl, ?_⟩
  · intro name args argStr h
    simp only [sympy_to_matlab, h]
    by_cases hn : name = "abs" <;> simp [hn]
  · intro n hn
    have hnone : function_mappings.lookup n = none := by
      rw [List.lookup_eq_none_iff]
      intro p hp
      exact bne_iff_ne.mpr (fun e => hn (List.mem_map.mpr ⟨p, hp, e.symm⟩))
    simp [mapFunc, hnone]

/-- Witness for C6: `arcsin(x)` becomes `asin(x)`, `abs(x)` stays `abs(x)`,
and the unlisted name `sinh` passes through unchanged. -/
theorem claim6_witness :
    sympy_to_matlab (.FunctionCall "arcsin" (.cons (.Generic "x") .nil)) = .ok "asin(x)" ∧
    sympy_to_matlab (.FunctionCall "abs" (.cons (.Generic "x") .nil)) = .ok "abs(x)" ∧
    mapFunc "sinh" = "sinh" := by
  refine ⟨?_, ?_, claim6_function_call.2.2.2.2.2 "sinh" (by decide)⟩
  · exact (claim6_function_call.1 "arcsin" (.cons (.Generic "x") .nil) "x" rfl).trans
      (by rfl)
  · exact (claim6_function_call.1 "abs" (.cons (.Generic "x") .nil) "x" rfl).trans
      (by rfl)

/-- Claim C7: a generic expression is stringified and only `**` is replaced
by `^`: the dispatch returns `_process_expression_string` of the default
string form, a string without `*` (in particular one using `/`) is returned
verbatim by the replacement, and single `*` survives (examples `x**2 + 1 →
x^2 + 1` and `a*b/c → a*b/c`). -/
theorem claim7_generic :
    (∀ l : List Char, '*' ∉ l → replaceAll "**".data "^".data l = l) ∧
    (∀ s : String, sympy_to_matlab (.Generic s) = .ok (_process_expression_string s)) ∧
    sympy_to_matlab (.Generic "x**2 + 1") = .ok "x^2 + 1" ∧
    sympy_to_matlab (.Generic "a*b/c") = .ok "a*b/c" := by
  refine ⟨?_, fun s => rfl, rfl, rfl⟩
  have key : ∀ fuel (l : List Char), '*' ∉ l →
      replaceAllFuel "**".data "^".data fuel l = l := by
    intro fuel
    induction fuel with
    | zero => intro l _; rfl
    | succ f ih =>
      intro l hl
      cases l with
      | nil => rfl
      | cons c cs =>
        have hc : ('*' == c) = false :=
          beq_eq_false_iff_ne.mpr (fun e => hl (by simp [← e]))
        have hpre : ("**".data.isPrefixOf (c :: cs)) = false := by
          show (['*', '*'].isPrefixOf (c :: cs)) = false
          rw [List.isPrefixOf_cons₂]
          simp [hc]
        simp only [replaceAllFuel, hpre, Bool.and_false, Bool.false_eq_true, if_false]
        rw [ih cs (fun h => hl (List.mem_cons_of_mem _ h))]
  intro l hl
  exact key l.length l hl

/-- Witness for C7: a star-free string with a division sign is untouched by
the `** → ^` replacement. -/
theorem claim7_witness : replaceAll "**".data "^".data "a/b".data = "a/b".data :=
  claim7_generic.1 "a/b".data (by decide)

/-- Claim C8: a list input with no elements fails with the
`Empty expression list` error; a non-empty list input is converted exactly as
its first element (the remaining elements play no role). -/
theorem claim8_list_handling :
    sympy_to_matlab_entry (.listIn []) = .error "Empty expression list" ∧
    (∀ e rest, sympy_to_matlab_entry (.listIn (e :: rest)) = sympy_to_matlab e) ∧
    (∀ e, sympy_to_matlab_entry (.single e) = sympy_to_matlab e) :=
  ⟨rfl, fun _ _ => rfl, fun _ => rfl⟩
